import Mathlib

/-!
Verification development for the license-text discovery and bundling engine
(`src/bundle.rs`).  Rust strings are embedded as `List Char` (the inputs of
interest are ASCII, where Rust's byte indexing and char iteration coincide);
file names and paths are embedded as `String`.  The external `license` crate
(the `License` value type and its `template()` method) is not part of the
source tree, so it is modelled from the spec; the canonical template text of a
well-known identifier is supplied by an explicit oracle function passed to
every definition that consults it.
-/

set_option maxRecDepth 8192

namespace Bundle

/-- Replacement of every occurrence of the single character `c` by `r`,
embedding Rust's `str::replace` for a one-character pattern. -/
def replaceChar (c r : Char) (s : List Char) : List Char :=
  s.map (fun x => if x = c then r else x)

/-- One left-to-right non-overlapping pass replacing the two-character pattern
"two spaces" by a single space, embedding Rust's `str::replace("  ", " ")`:
after a match the scan resumes beyond the replaced pattern, so a run of three
spaces leaves two spaces in the output. -/
def collapseDouble : List Char → List Char
  | [] => []
  | [c] => [c]
  | c1 :: c2 :: rest =>
    if c1 = ' ' ∧ c2 = ' ' then ' ' :: collapseDouble rest
    else c1 :: collapseDouble (c2 :: rest)

/-- Embeds `normalize` (src/bundle.rs line 206):
`text.replace("\r", " ").replace("\n", " ").replace("  ", " ").to_uppercase()`.
Upper-casing is char-wise `Char.toUpper`, which agrees with Rust's
`to_uppercase` on ASCII text. -/
def normalize (text : List Char) : List Char :=
  (collapseDouble (replaceChar '\n' ' ' (replaceChar '\r' ' ' text))).map Char.toUpper

/-- Minimum of three naturals. -/
def min3 (a b c : Nat) : Nat := Nat.min a (Nat.min b c)

/-- Inner loop of one row of the Levenshtein dynamic program.  Arguments:
`pd` is the previous row's entry at column `j-1` (the diagonal), `pn` is the
entry at column `j-1` of the row being built, the two lists are the remaining
template characters and the remaining previous-row entries from column `j`. -/
def levGo (x : Char) : Nat → Nat → List Char → List Nat → List Nat
  | pd, pn, y :: ys, r :: rs =>
    let n := min3 (r + 1) (pn + 1) (pd + (if x = y then 0 else 1))
    n :: levGo x r n ys rs
  | _, _, _, _ => []

/-- One row step of the Levenshtein dynamic program: from the row for a prefix
of the first string, produce the row after consuming one further char `x`. -/
def levStep (x : Char) (ys : List Char) (row : List Nat) : List Nat :=
  match row with
  | r0 :: rs => (r0 + 1) :: levGo x r0 (r0 + 1) ys rs
  | [] => []

/-- Plain edit distance (insert / delete / substitute), embedding the external
`strsim::levenshtein` used at src/bundle.rs lines 218 and 231, computed by the
standard row dynamic program over characters. -/
def levenshtein (xs ys : List Char) : Nat :=
  (xs.foldl (fun row x => levStep x ys row) (List.range (ys.length + 1))).getLastD 0

/-- Inner loop of one row of the optimal-string-alignment dynamic program.
`x` is the current first-string char, `px` the previous one (when any), and
`pprev` the full row two steps back, consulted at column `j - 2` for the
transposition case.  `pd`/`pn` are as in `levGo`, `py` is the previous
second-string char, and the walk carries the explicit column index `j`. -/
def osaGo (x : Char) (px : Option Char) (pprev : List Nat) :
    Nat → Nat → Nat → Option Char → List Char → List Nat → List Nat
  | j, pd, pn, py, y :: ys, r :: rs =>
    let cost : Nat := if x = y then 0 else 1
    let base := min3 (pn + 1) (r + 1) (pd + cost)
    let d :=
      match px, py with
      | some pxc, some pyc =>
        if x ≠ y ∧ x = pyc ∧ y = pxc then Nat.min base (pprev.getD (j - 2) 0 + 1)
        else base
      | _, _ => base
    d :: osaGo x px pprev (j + 1) r d (some y) ys rs
  | _, _, _, _, _, _ => []

/-- One row of the optimal-string-alignment dynamic program, for row index
`i ≥ 1` whose first-string char is `x` (preceded by `px` when `i ≥ 2`). -/
def osaRowStep (x : Char) (px : Option Char) (i : Nat) (ys : List Char)
    (prev pprev : List Nat) : List Nat :=
  match prev with
  | p0 :: prs => i :: osaGo x px pprev 1 p0 i none ys prs
  | [] => [i]

/-- Optimal string alignment distance (insert / delete / substitute plus
adjacent transposition, each substring rewritten at most once), embedding the
external `strsim::osa_distance` used at src/bundle.rs line 216. -/
def osa_distance (xs ys : List Char) : Nat :=
  let init : List Nat := List.range (ys.length + 1)
  let final := xs.foldl
    (fun st x =>
      match st with
      | (pprev, prev, px, i) => (prev, osaRowStep x px (i + 1) ys prev pprev, some x, i + 1))
    ((init, init, none, 0) : List Nat × List Nat × Option Char × Nat)
  final.2.1.getLastD 0

/-- Rust range slicing `&l[i..j]`: defined (`some`) exactly when the bounds are
ordered and within the text, and a panic (`none`) otherwise.  This models the
unguarded byte slice at src/bundle.rs line 217 (on ASCII text every position is
a char boundary, so only the length bound can fail). -/
def rustSlice? (l : List Char) (i j : Nat) : Option (List Char) :=
  if i ≤ j ∧ j ≤ l.length then some ((l.drop i).take (j - i)) else none

/-- Total completion of `rustSlice?`, returning the empty text where the Rust
code would panic; the panic condition itself is tracked through `rustSlice?`. -/
def rustSliceD (l : List Char) (i j : Nat) : List Char :=
  (rustSlice? l i j).getD []

/-- Modelled from the spec: the license-expression value type of the external
`license` crate (not part of the source tree).  A closed tagged variant: the
well-known identifiers handled by name-based discovery (`MIT`, `Apache-2.0`),
an escape hatch for a custom/free-text identifier, "unspecified", a
conjunction of several obligations, and the remaining well-known identifiers
(which specific-mode discovery never matches by name). -/
inductive License where
  | MIT : License
  | Apache_2_0 : License
  | Custom (name : String) : License
  | Unspecified : License
  | Multiple (licenses : List License) : License
  | Other (id : String) : License

/-- Discriminator for the conjunction variant, used to state which branch of
`check_against_template` a license takes. -/
def License.isMultiple : License → Bool
  | .Multiple _ => true
  | _ => false

/-- Template oracle: for each license value, the canonical template text that
the external crate's `template()` method would return, if any. -/
abbrev Templates := License → Option (List Char)

/-- Modelled from the spec: a well-behaved template oracle gives no template to
a custom/free-text identifier and none to "unspecified" (which has no
identifier at all). -/
def SpecTemplates (tmpl : Templates) : Prop :=
  tmpl .Unspecified = none ∧ ∀ s, tmpl (.Custom s) = none

/-- Embeds `MAX_LEVENSHTEIN_RATIO` (src/bundle.rs line 204).  The source
constant is the `f32` literal `0.1`, modelled as the exact rational it
denotes in the surrounding comparisons. -/
def MAX_LEVENSHTEIN_RATIO : ℚ := 1 / 10

/-- The strict comparison `(score as f32) / (len as f32) < MAX_LEVENSHTEIN_RATIO`
of src/bundle.rs line 233, over exact rationals. -/
def scoreRatioLtMax (score len : Nat) : Prop :=
  (score : ℚ) / (len : ℚ) < MAX_LEVENSHTEIN_RATIO

/-- The strict comparison `(score as f32) / (len as f32) > MAX_LEVENSHTEIN_RATIO`
of src/bundle.rs line 220, over exact rationals. -/
def scoreRatioGtMax (score len : Nat) : Prop :=
  (score : ℚ) / (len : ℚ) > MAX_LEVENSHTEIN_RATIO

/-- The score ratio is strictly below the threshold exactly when ten times the
score is strictly below the template length (with the degenerate zero-length
case, where the rational quotient is zero, spelled out). -/
theorem scoreRatioLtMax_iff (score len : Nat) :
    scoreRatioLtMax score len ↔ (len = 0 ∨ 10 * score < len) := by
  unfold scoreRatioLtMax MAX_LEVENSHTEIN_RATIO
  rcases Nat.eq_zero_or_pos len with h | h
  · subst h
    simp
  · have hl : (0 : ℚ) < (len : ℚ) := by exact_mod_cast h
    rw [div_lt_div_iff₀ hl (by norm_num : (0:ℚ) < 10)]
    constructor
    · intro hlt
      right
      have : (10 * score : ℚ) < (len : ℚ) := by linarith
      exact_mod_cast this
    · intro hor
      rcases hor with h0 | hlt
      · omega
      · have : ((10 * score : Nat) : ℚ) < (len : ℚ) := by exact_mod_cast hlt
        push_cast at this
        linarith

/-- The score ratio strictly exceeds the threshold exactly when ten times the
score strictly exceeds a nonzero template length. -/
theorem scoreRatioGtMax_iff (score len : Nat) :
    scoreRatioGtMax score len ↔ (len ≠ 0 ∧ len < 10 * score) := by
  unfold scoreRatioGtMax MAX_LEVENSHTEIN_RATIO
  rcases Nat.eq_zero_or_pos len with h | h
  · subst h
    simp
  · have hl : (0 : ℚ) < (len : ℚ) := by exact_mod_cast h
    rw [gt_iff_lt, div_lt_div_iff₀ (by norm_num : (0:ℚ) < 10) hl]
    constructor
    · intro hlt
      refine ⟨by omega, ?_⟩
      have : (len : ℚ) < (10 * score : ℚ) := by push_cast at hlt ⊢; linarith
      exact_mod_cast this
    · intro ⟨_, hlt⟩
      have : (len : ℚ) < ((10 * score : Nat) : ℚ) := by exact_mod_cast hlt
      push_cast at this ⊢
      linarith

instance (score len : Nat) : Decidable (scoreRatioLtMax score len) :=
  decidable_of_iff _ (scoreRatioLtMax_iff score len).symm

instance (score len : Nat) : Decidable (scoreRatioGtMax score len) :=
  decidable_of_iff _ (scoreRatioGtMax_iff score len).symm

/-- Per-component check of the conjunctive branch of `check_against_template`
(src/bundle.rs lines 213-226), applied to the already-normalized candidate
text: with no template the component fails; otherwise the offset is the
optimal-string-alignment distance to the normalized template, the candidate is
sliced at that offset to the template's length, and the component fails
exactly when the Levenshtein score over the template length exceeds the
threshold (note `>`: a ratio equal to the threshold is not rejected here). -/
def component_check (tmpl : Templates) (ntext : List Char) (l : License) : Bool :=
  match tmpl l with
  | some t =>
    let template := normalize t
    let offset := osa_distance ntext template
    let subtext := rustSliceD ntext offset (offset + template.length)
    let score := levenshtein subtext template
    if scoreRatioGtMax score template.length then false else true
  | none => false

/-- Embeds `check_against_template` (src/bundle.rs lines 210-238): normalize
the candidate; a conjunctive obligation passes when every component passes its
own check, any other obligation passes when it has a template and the
Levenshtein score of the whole candidate against the template is strictly
below the threshold, and fails when it has no template. -/
def check_against_template (tmpl : Templates) (text : List Char) (license : License) : Bool :=
  let ntext := normalize text
  match license with
  | .Multiple licenses => licenses.all (component_check tmpl ntext)
  | l =>
    match tmpl l with
    | some t =>
      let template := normalize t
      let score := levenshtein ntext template
      if scoreRatioLtMax score template.length then true else false
    | none => false

/-- Embeds the `Confidence` enum (src/bundle.rs lines 13-18). -/
inductive Confidence where
  | Confident : Confidence
  | SemiConfident : Confidence
  | Unsure : Confidence
deriving DecidableEq, Repr

/-- Embeds `LicenseText` (src/bundle.rs lines 20-24): a discovered candidate
with its path, full raw text, and confidence tier. -/
structure LicenseText where
  path : String
  text : List Char
  confidence : Confidence

/-- One directory entry of a package root: a file name and its content, with
`none` standing for a file that fails to read as text (skipped by both
discovery modes). -/
structure Entry where
  name : String
  content : Option (List Char)

/-- A package as the engine sees it: its name, the display form of its root
directory, its declared license obligation (the external `Licensed` trait),
and the entries of its root directory in filesystem iteration order. -/
structure Package where
  name : String
  root : String
  license : License
  dir : List Entry

/-- Path of a directory entry under a package root (`entry.path()`). -/
def entryPath (pkg : Package) (e : Entry) : String :=
  pkg.root ++ "/" ++ e.name

/-- Embeds the aggregate fields of `Context` (src/bundle.rs lines 26-33): the
two run-wide flags.  The shell and the output stream are modelled as the
explicit diagnostic and output lists the functions below return. -/
structure Context where
  missing_license : Bool
  low_quality_license : Bool
deriving DecidableEq, Repr

/-- Severity of a shell diagnostic (`shell.warn` / `shell.error`). -/
inductive Severity where
  | warn : Severity
  | error : Severity
deriving DecidableEq, Repr

/-- The message templates emitted through the shell, one constructor per
`format_args!` template of src/bundle.rs, carrying the values interpolated
into it.  Where the source emits a header line followed by one line per path,
the single constructor carries the whole path list. -/
inductive DiagMsg where
  | noLicense (pkg : String) : DiagMsg
  | multipleCandidates (pkg : String) (license : License) (paths : List String) : DiagMsg
  | onlyLowConfidence (pkg : String) (license : License) (path : String) : DiagMsg
  | multipleLowConfidence (pkg : String) (license : License) (paths : List String) : DiagMsg
  | onlyVeryLowConfidence (pkg : String) (license : License) (path : String) : DiagMsg
  | multipleVeryLowConfidence (pkg : String) (license : License) (paths : List String) : DiagMsg
  | noCandidates (pkg : String) (license : License) (root : String) : DiagMsg
  | missingSummary : DiagMsg
  | lowQualitySummary : DiagMsg

/-- A shell diagnostic: severity plus message. -/
structure Diag where
  severity : Severity
  msg : DiagMsg

/-- One item of the bundle output stream, one constructor per `writeln!`
template of src/bundle.rs: the opening line naming the root package, a
package header `" * <name> under <license>:"`, an indented license-text line,
the `"    ==============="` separator, and a blank line. -/
inductive OutItem where
  | preamble (root : String) : OutItem
  | header (pkg : String) (license : License) : OutItem
  | textLine (line : List Char) : OutItem
  | separator : OutItem
  | blank : OutItem

/-- Result of a diagnostic-emitting, output-writing step: the updated context,
the diagnostics emitted on the shell, and the items written to the output. -/
structure Emit where
  ctx : Context
  diags : List Diag
  out : List OutItem

/-- Split a character list at every `'\n'`, keeping empty pieces (the pieces of
`str::split('\n')`). -/
def splitNl : List Char → List (List Char)
  | [] => [[]]
  | c :: rest =>
    if c = '\n' then [] :: splitNl rest
    else
      match splitNl rest with
      | p :: ps => (c :: p) :: ps
      | [] => [[c]]

/-- Embeds Rust's `str::lines` for the indented text output: split at `'\n'`,
drop a final empty piece (so a trailing newline adds no extra line), and strip
one trailing `'\r'` from each line. -/
def rustLines (s : List Char) : List (List Char) :=
  let parts := splitNl s
  let parts := if parts.getLast? = some [] ∧ s ≠ [] then parts.dropLast else parts
  parts.map (fun l => if l.getLast? = some '\r' then l.dropLast else l)

/-- Upper-casing of a file name, char by char (Rust's `str::to_uppercase`,
which on ASCII names is char-wise). -/
def strUpper (s : String) : String :=
  String.mk (s.toList.map Char.toUpper)

/-- Embeds `generic_license_name` (src/bundle.rs lines 241-245). -/
def generic_license_name (name : String) : Bool :=
  strUpper name == "LICENSE" || strUpper name == "LICENSE.MD" || strUpper name == "LICENSE.TXT"

/-- Loop of `find_generic_license_text` over the directory entries: the first
generically-named entry that reads successfully is scored and returned
(`Confident` on pass, `Unsure` on fail); a generically-named entry that fails
to read is skipped and the scan continues. -/
def find_generic_go (tmpl : Templates) (pkg : Package) : List Entry → Option LicenseText
  | [] => none
  | e :: es =>
    if generic_license_name e.name then
      match e.content with
      | some text =>
        some { path := entryPath pkg e
               text := text
               confidence :=
                 if check_against_template tmpl text pkg.license then .Confident else .Unsure }
      | none => find_generic_go tmpl pkg es
    else find_generic_go tmpl pkg es

/-- Embeds `find_generic_license_text` (src/bundle.rs lines 240-270), with the
directory-read result sequence given by the package's entry list. -/
def find_generic_license_text (tmpl : Templates) (pkg : Package) : Option LicenseText :=
  find_generic_go tmpl pkg pkg.dir

/-- Embeds `name_matches` (src/bundle.rs lines 279-288). -/
def name_matches (name : String) (license : License) : Bool :=
  match license with
  | .MIT => name == "LICENSE-MIT"
  | .Apache_2_0 => name == "LICENSE-APACHE"
  | .Custom custom =>
    strUpper name == strUpper custom || strUpper name == "LICENSE-" ++ strUpper custom
  | _ => false

/-- Embeds `find_license_text` (src/bundle.rs lines 272-314): every readable
entry whose name matches the license's filename convention is collected in
directory order, scored `Confident` on pass and `SemiConfident` on fail. -/
def find_license_text (tmpl : Templates) (pkg : Package) (license : License) : List LicenseText :=
  pkg.dir.filterMap (fun e =>
    if name_matches e.name license then
      e.content.map (fun text =>
        { path := entryPath pkg e
          text := text
          confidence :=
            if check_against_template tmpl text license then .Confident else .SemiConfident })
    else none)

/-- Embeds `choose` (src/bundle.rs lines 151-195): partition the candidates by
confidence tier (each partition preserving order) and apply the count-driven
selection policy; `swap_remove(0)` returns the first element of the partition
it is applied to. -/
def choose (ctx : Context) (pkg : Package) (license : License) (texts : List LicenseText) :
    Context × List Diag × Option LicenseText :=
  let p1 := texts.partition (fun t => t.confidence = Confidence.Confident)
  let confident := p1.1
  let p2 := p1.2.partition (fun t => t.confidence = Confidence.SemiConfident)
  let semi_confident := p2.1
  let unconfident := p2.2
  if confident.length = 1 then
    (ctx, [], confident.head?)
  else if confident.length > 1 then
    (ctx,
     [⟨.error, .multipleCandidates pkg.name license (confident.map LicenseText.path)⟩],
     confident.head?)
  else if semi_confident.length = 1 then
    (ctx,
     [⟨.warn, .onlyLowConfidence pkg.name license ((semi_confident.map LicenseText.path).headD "")⟩],
     semi_confident.head?)
  else if semi_confident.length > 1 then
    ({ ctx with low_quality_license := true },
     [⟨.error, .multipleLowConfidence pkg.name license (semi_confident.map LicenseText.path)⟩],
     semi_confident.head?)
  else if unconfident.length = 1 then
    ({ ctx with low_quality_license := true },
     [⟨.warn, .onlyVeryLowConfidence pkg.name license ((unconfident.map LicenseText.path).headD "")⟩],
     unconfident.head?)
  else if unconfident.length > 1 then
    ({ ctx with low_quality_license := true },
     [⟨.error, .multipleVeryLowConfidence pkg.name license (unconfident.map LicenseText.path)⟩],
     unconfident.head?)
  else
    ({ ctx with missing_license := true },
     [⟨.error, .noCandidates pkg.name license pkg.root⟩],
     none)

/-- Embeds `inline_license` (src/bundle.rs lines 141-149): resolve the
specific-mode candidates through `choose`; when a text is chosen its lines are
written indented. -/
def inline_license (tmpl : Templates) (ctx : Context) (pkg : Package) (license : License) : Emit :=
  let r := choose ctx pkg license (find_license_text tmpl pkg license)
  { ctx := r.1
    diags := r.2.1
    out :=
      match r.2.2 with
      | some text => (rustLines text.text).map OutItem.textLine
      | none => [] }

/-- Loop over the components of a conjunctive obligation (src/bundle.rs lines
119-131): each component after the first is preceded by a blank line, the
`===============` separator, and another blank line. -/
def inline_multi (tmpl : Templates) (ctx : Context) (pkg : Package) : List License → Emit
  | [] => ⟨ctx, [], []⟩
  | [l] => inline_license tmpl ctx pkg l
  | l :: l2 :: ls =>
    let e1 := inline_license tmpl ctx pkg l
    let e2 := inline_multi tmpl e1.ctx pkg (l2 :: ls)
    ⟨e2.ctx, e1.diags ++ e2.diags,
     e1.out ++ [OutItem.blank, OutItem.separator, OutItem.blank] ++ e2.out⟩

/-- Embeds `inline_package` (src/bundle.rs lines 95-139): write the package
header; try generic-mode discovery for the whole obligation first and, on
success, use that text directly with confidence-based inline diagnostics;
otherwise report an unspecified license, or resolve each component (or the
single license) through specific-mode discovery and `choose`. -/
def inline_package (tmpl : Templates) (ctx : Context) (pkg : Package) : Emit :=
  let header : List OutItem := [OutItem.header pkg.name pkg.license, OutItem.blank]
  match find_generic_license_text tmpl pkg with
  | some text =>
    let ds : List Diag :=
      match text.confidence with
      | .Confident => []
      | .SemiConfident => [⟨.warn, .onlyLowConfidence pkg.name pkg.license text.path⟩]
      | .Unsure => [⟨.error, .onlyVeryLowConfidence pkg.name pkg.license text.path⟩]
    { ctx := ctx
      diags := ds
      out := header ++ (rustLines text.text).map OutItem.textLine ++ [OutItem.blank] }
  | none =>
    match pkg.license with
    | .Unspecified =>
      { ctx := ctx
        diags := [⟨.error, .noLicense pkg.name⟩]
        out := header ++ [OutItem.blank] }
    | .Multiple licenses =>
      let e := inline_multi tmpl ctx pkg licenses
      { e with out := header ++ e.out ++ [OutItem.blank] }
    | l =>
      let e := inline_license tmpl ctx pkg l
      { e with out := header ++ e.out ++ [OutItem.blank] }

/-- Loop of `inline` over the package list (src/bundle.rs lines 88-91): each
package block is followed by a blank line. -/
def inlinePackages (tmpl : Templates) (ctx : Context) : List Package → Emit
  | [] => ⟨ctx, [], []⟩
  | p :: ps =>
    let e1 := inline_package tmpl ctx p
    let e2 := inlinePackages tmpl e1.ctx ps
    ⟨e2.ctx, e1.diags ++ e2.diags, e1.out ++ [OutItem.blank] ++ e2.out⟩

/-- Embeds `inline` (src/bundle.rs lines 85-93): the opening line naming the
root package, a blank line, then every package block. -/
def inline (tmpl : Templates) (ctx : Context) (root : Package) (packages : List Package) : Emit :=
  let e := inlinePackages tmpl ctx packages
  { e with out := OutItem.preamble root.name :: OutItem.blank :: e.out }

/-- Key order of `packages.sort_by_key(|package| package.name().to_owned())`:
Rust's `String` ordering is byte-lexicographic, which on ASCII names agrees
with the lexicographic order on the name's character list. -/
def nameLe (p q : Package) : Prop := p.name.toList ≤ q.name.toList

instance : DecidableRel nameLe := fun _ _ => inferInstanceAs (Decidable (_ ≤ _))

instance : IsTotal Package nameLe := ⟨fun p q => le_total p.name.toList q.name.toList⟩

instance : IsTrans Package nameLe := ⟨fun _ _ _ h1 h2 => le_trans h1 h2⟩

/-- The sort of src/bundle.rs line 36: a stable sort by package name, embedded
as insertion sort (stable, and agreeing with Rust's byte order on ASCII
names). -/
def sortByName (packages : List Package) : List Package :=
  packages.insertionSort nameLe

/-- The end-of-run summary diagnostics (src/bundle.rs lines 56-76): one error
paragraph per aggregate flag that is set. -/
def summaryDiags (ctx : Context) : List Diag :=
  (if ctx.missing_license then [⟨Severity.error, DiagMsg.missingSummary⟩] else []) ++
    (if ctx.low_quality_license then [⟨Severity.error, DiagMsg.lowQualitySummary⟩] else [])

/-- Overall result of a run. -/
structure RunResult where
  ctx : Context
  diags : List Diag
  out : List OutItem
  result : Except String Unit

/-- Embeds `run` (src/bundle.rs lines 35-83): sort the packages by name, start
from both flags clear, render the bundle, emit the summary paragraph for each
flag that ended up set, and fail with the generic error exactly when either
flag is set.  Output-stream writes are modelled as pure accumulation; the
choice between a file and standard output does not affect the document. -/
def run (tmpl : Templates) (root : Package) (packages : List Package) : RunResult :=
  let e := inline tmpl ⟨false, false⟩ root (sortByName packages)
  { ctx := e.ctx
    diags := e.diags ++ summaryDiags e.ctx
    out := e.out
    result :=
      if e.ctx.missing_license || e.ctx.low_quality_license then
        Except.error "Generating bundle finished with error(s)"
      else
        Except.ok () }

/-- Names of the package header lines of an output stream, in order. -/
def outputHeaders (out : List OutItem) : List String :=
  out.filterMap (fun item =>
    match item with
    | .header n _ => some n
    | _ => none)

/-- Concrete template oracle assigning the ten-letter template `ABCDEFGHIJ` to
the MIT identifier and none to every other license. -/
def mitTemplates : Templates := fun l =>
  match l with
  | .MIT => some "ABCDEFGHIJ".toList
  | _ => none

/-- Concrete template oracle with no templates at all. -/
def noTemplates : Templates := fun _ => none

/-- Concrete template oracle assigning the four-letter template `AAAA` to the
MIT identifier and none to every other license. -/
def shortTemplates : Templates := fun l =>
  match l with
  | .MIT => some "AAAA".toList
  | _ => none

/-- On a non-conjunctive license, `check_against_template` takes the single
branch: look up the template and compare the strict ratio bound, or fail with
no template. -/
theorem check_eq_single (tmpl : Templates) (text : List Char) (l : License)
    (h : l.isMultiple = false) :
    check_against_template tmpl text l =
      (match tmpl l with
       | some t =>
         if scoreRatioLtMax (levenshtein (normalize text) (normalize t)) (normalize t).length
         then true else false
       | none => false) := by
  cases l <;> first
    | rfl
    | simp [License.isMultiple] at h

/-- On a conjunctive license, `check_against_template` is the conjunction of
the per-component checks over the normalized candidate. -/
theorem check_multiple_all (tmpl : Templates) (text : List Char) (ls : List License) :
    check_against_template tmpl text (.Multiple ls) =
      ls.all (component_check tmpl (normalize text)) := rfl

/-- A component with no template fails its check. -/
theorem component_check_none (tmpl : Templates) (ntext : List Char) (l : License)
    (h : tmpl l = none) : component_check tmpl ntext l = false := by
  unfold component_check
  rw [h]

/-- A component with a template passes its check exactly when the Levenshtein
score of the offset slice does not exceed the threshold (the source rejects on
strict `>`). -/
theorem component_check_some (tmpl : Templates) (ntext : List Char) (l : License)
    (t : List Char) (h : tmpl l = some t) :
    component_check tmpl ntext l =
      (if scoreRatioGtMax
            (levenshtein
              (rustSliceD ntext (osa_distance ntext (normalize t))
                (osa_distance ntext (normalize t) + (normalize t).length))
              (normalize t))
            (normalize t).length
       then false else true) := by
  unfold component_check
  rw [h]

/-- C3 (corrected): the strict-`<`-at-0.1 rule holds only on the single-license
path; the conjunctive path of the source compares with `>` and therefore
accepts a component whose ratio is exactly 0.1.  Here a conjunctive obligation
over one MIT component with the ten-character template `ABCDEFGHIJ` and the
candidate `A0BCDEFGHIJ` yields offset 1, slice `0BCDEFGHIJ`, score 1 and
template length 10 — a ratio of exactly 0.1 — and the check passes, while the
single-license path on the same candidate and template fails. -/
theorem C3_cex :
    osa_distance (normalize "A0BCDEFGHIJ".toList) (normalize "ABCDEFGHIJ".toList) = 1 ∧
    levenshtein
      (rustSliceD (normalize "A0BCDEFGHIJ".toList) 1 11)
      (normalize "ABCDEFGHIJ".toList) = 1 ∧
    (normalize "ABCDEFGHIJ".toList).length = 10 ∧
    check_against_template mitTemplates "A0BCDEFGHIJ".toList (.Multiple [.MIT]) = true ∧
    check_against_template mitTemplates "A0BCDEFGHIJ".toList .MIT = false := by
  refine ⟨by decide, by decide, by decide, by decide, by decide⟩

/-- C3 (amended): on the single-license path the match passes iff the
Levenshtein score over the template length is strictly below 0.1, so a ratio
of exactly 0.1 fails there; on each component of a conjunctive obligation the
source instead rejects on ratio strictly above 0.1, so a component ratio of
exactly 0.1 passes. -/
theorem C3_threshold :
    (∀ (tmpl : Templates) (text : List Char) (l : License) (t : List Char),
      l.isMultiple = false → tmpl l = some t → 0 < (normalize t).length →
      (check_against_template tmpl text l = true ↔
        10 * levenshtein (normalize text) (normalize t) < (normalize t).length)) ∧
    (∀ (tmpl : Templates) (ntext : List Char) (l : License) (t : List Char),
      tmpl l = some t → 0 < (normalize t).length →
      (component_check tmpl ntext l = true ↔
        10 * levenshtein
            (rustSliceD ntext (osa_distance ntext (normalize t))
              (osa_distance ntext (normalize t) + (normalize t).length))
            (normalize t) ≤ (normalize t).length)) := by
  constructor
  · intro tmpl text l t hm ht hlen
    rw [check_eq_single tmpl text l hm, ht]
    by_cases hc :
        scoreRatioLtMax (levenshtein (normalize text) (normalize t)) (normalize t).length
    · simp only [hc, if_true]
      rcases (scoreRatioLtMax_iff _ _).mp hc with h0 | h10
      · omega
      · simp [h10]
    · simp only [hc, if_false]
      constructor
      · intro h
        exact absurd h (by simp)
      · intro hlt
        exact absurd ((scoreRatioLtMax_iff _ _).mpr (Or.inr hlt)) hc
  · intro tmpl ntext l t ht hlen
    rw [component_check_some tmpl ntext l t ht]
    by_cases hc :
        scoreRatioGtMax
          (levenshtein
            (rustSliceD ntext (osa_distance ntext (normalize t))
              (osa_distance ntext (normalize t) + (normalize t).length))
            (normalize t))
          (normalize t).length
    · simp only [hc, if_true]
      rcases (scoreRatioGtMax_iff _ _).mp hc with ⟨_, hgt⟩
      constructor
      · intro h
        exact absurd h (by simp)
      · intro hle
        omega
    · simp only [hc, if_false]
      have := (scoreRatioGtMax_iff
        (levenshtein
          (rustSliceD ntext (osa_distance ntext (normalize t))
            (osa_distance ntext (normalize t) + (normalize t).length))
          (normalize t))
        (normalize t).length).not.mp hc
      push_neg at this
      simp only [true_iff]
      have hne : (normalize t).length ≠ 0 := by omega
      exact this hne

/-- Witness for `C3_threshold` at the concrete MIT oracle: the candidate
`A0BCDEFGHIJ` against the template `ABCDEFGHIJ` on both paths. -/
theorem C3_threshold_witness :
    License.isMultiple .MIT = false ∧
    mitTemplates .MIT = some "ABCDEFGHIJ".toList ∧
    0 < (normalize "ABCDEFGHIJ".toList).length ∧
    (check_against_template mitTemplates "A0BCDEFGHIJ".toList .MIT = true ↔
      10 * levenshtein (normalize "A0BCDEFGHIJ".toList) (normalize "ABCDEFGHIJ".toList) <
        (normalize "ABCDEFGHIJ".toList).length) ∧
    (component_check mitTemplates (normalize "A0BCDEFGHIJ".toList) .MIT = true ↔
      10 * levenshtein
          (rustSliceD (normalize "A0BCDEFGHIJ".toList)
            (osa_distance (normalize "A0BCDEFGHIJ".toList) (normalize "ABCDEFGHIJ".toList))
            (osa_distance (normalize "A0BCDEFGHIJ".toList) (normalize "ABCDEFGHIJ".toList) +
              (normalize "ABCDEFGHIJ".toList).length))
          (normalize "ABCDEFGHIJ".toList) ≤ (normalize "ABCDEFGHIJ".toList).length) :=
  ⟨rfl, rfl, by decide,
   C3_threshold.1 mitTemplates "A0BCDEFGHIJ".toList .MIT "ABCDEFGHIJ".toList rfl rfl (by decide),
   C3_threshold.2 mitTemplates (normalize "A0BCDEFGHIJ".toList) .MIT "ABCDEFGHIJ".toList rfl
     (by decide)⟩

/-- C5 (confirmed): a conjunctive obligation passes `check_against_template`
iff every component has a template and every component passes its own check;
a single license without a template fails, and a conjunction containing a
template-less component fails. -/
theorem C5_multiple_check :
    (∀ (tmpl : Templates) (text : List Char) (ls : List License),
      check_against_template tmpl text (.Multiple ls) = true ↔
        ∀ l ∈ ls, (tmpl l).isSome = true ∧ component_check tmpl (normalize text) l = true) ∧
    (∀ (tmpl : Templates) (text : List Char) (l : License),
      l.isMultiple = false → tmpl l = none → check_against_template tmpl text l = false) ∧
    (∀ (tmpl : Templates) (text : List Char) (ls : List License) (l : License),
      l ∈ ls → tmpl l = none → check_against_template tmpl text (.Multiple ls) = false) := by
  refine ⟨?_, ?_, ?_⟩
  · intro tmpl text ls
    rw [check_multiple_all, List.all_eq_true]
    constructor
    · intro h l hl
      refine ⟨?_, h l hl⟩
      cases htl : tmpl l with
      | none =>
        have hf := h l hl
        rw [component_check_none tmpl _ l htl] at hf
        exact absurd hf (by simp)
      | some t => rfl
    · intro h l hl
      exact (h l hl).2
  · intro tmpl text l hm hnone
    rw [check_eq_single tmpl text l hm, hnone]
  · intro tmpl text ls l hl hnone
    rw [check_multiple_all]
    cases hall : (ls.all (component_check tmpl (normalize text))) with
    | false => rfl
    | true =>
      have := List.all_eq_true.mp hall l hl
      rw [component_check_none tmpl _ l hnone] at this
      exact absurd this (by simp)

/-- Witness for `C5_multiple_check` at concrete inputs: an empty oracle makes
both the single MIT license and a conjunction containing it fail, and the
conjunction equivalence holds at the MIT oracle. -/
theorem C5_multiple_check_witness :
    (check_against_template mitTemplates "A0BCDEFGHIJ".toList (.Multiple [.MIT]) = true ↔
      ∀ l ∈ [License.MIT], (mitTemplates l).isSome = true ∧
        component_check mitTemplates (normalize "A0BCDEFGHIJ".toList) l = true) ∧
    License.isMultiple .MIT = false ∧ noTemplates .MIT = none ∧
    check_against_template noTemplates "A0BCDEFGHIJ".toList .MIT = false ∧
    License.MIT ∈ [License.MIT] ∧
    check_against_template noTemplates "A0BCDEFGHIJ".toList (.Multiple [.MIT]) = false :=
  ⟨C5_multiple_check.1 mitTemplates "A0BCDEFGHIJ".toList [.MIT],
   rfl, rfl,
   C5_multiple_check.2.1 noTemplates "A0BCDEFGHIJ".toList .MIT rfl rfl,
   List.Mem.head _,
   C5_multiple_check.2.2 noTemplates "A0BCDEFGHIJ".toList [.MIT] .MIT (List.Mem.head _) rfl⟩

/-- C10 (confirmed): the offset slice of the conjunctive scoring path is
performed without a bounds guard; it is in range exactly when the normalized
candidate is at least `offset + templateLength` long, and for a shorter
candidate (here the one-character candidate `A` against the ten-character
template `ABCDEFGHIJ`, giving offset 9 and upper bound 19) the slice bound
exceeds the candidate's length and the unguarded Rust slice panics. -/
theorem C10_slice_bound :
    (∀ (text t : List Char),
      (rustSlice? (normalize text)
        (osa_distance (normalize text) (normalize t))
        (osa_distance (normalize text) (normalize t) + (normalize t).length)).isSome = true ↔
      osa_distance (normalize text) (normalize t) + (normalize t).length ≤
        (normalize text).length) ∧
    osa_distance (normalize "A".toList) (normalize "ABCDEFGHIJ".toList) = 9 ∧
    rustSlice? (normalize "A".toList) 9 (9 + (normalize "ABCDEFGHIJ".toList).length) = none := by
  refine ⟨?_, by decide, by decide⟩
  intro text t
  unfold rustSlice?
  by_cases h :
      osa_distance (normalize text) (normalize t) + (normalize t).length ≤
        (normalize text).length
  · rw [if_pos ⟨Nat.le_add_right _ _, h⟩]
    simp [h]
  · rw [if_neg (fun hc => h hc.2)]
    simp [h]

/-- The three confidence buckets of `choose` are the plain per-tier filters of
the candidate list (the second and third partitions act on already-restricted
lists, but each tier excludes the previous ones). -/
theorem choose_buckets (ctx : Context) (pkg : Package) (license : License)
    (texts : List LicenseText) :
    choose ctx pkg license texts =
      (let confident := texts.filter (fun t => t.confidence = Confidence.Confident)
       let semi_confident := texts.filter (fun t => t.confidence = Confidence.SemiConfident)
       let unconfident := texts.filter (fun t => t.confidence = Confidence.Unsure)
       if confident.length = 1 then
         (ctx, [], confident.head?)
       else if confident.length > 1 then
         (ctx,
          [⟨.error, .multipleCandidates pkg.name license (confident.map LicenseText.path)⟩],
          confident.head?)
       else if semi_confident.length = 1 then
         (ctx,
          [⟨.warn, .onlyLowConfidence pkg.name license
            ((semi_confident.map LicenseText.path).headD "")⟩],
          semi_confident.head?)
       else if semi_confident.length > 1 then
         ({ ctx with low_quality_license := true },
          [⟨.error, .multipleLowConfidence pkg.name license
            (semi_confident.map LicenseText.path)⟩],
          semi_confident.head?)
       else if unconfident.length = 1 then
         ({ ctx with low_quality_license := true },
          [⟨.warn, .onlyVeryLowConfidence pkg.name license
            ((unconfident.map LicenseText.path).headD "")⟩],
          unconfident.head?)
       else if unconfident.length > 1 then
         ({ ctx with low_quality_license := true },
          [⟨.error, .multipleVeryLowConfidence pkg.name license
            (unconfident.map LicenseText.path)⟩],
          unconfident.head?)
       else
         ({ ctx with missing_license := true },
          [⟨.error, .noCandidates pkg.name license pkg.root⟩],
          none)) := by
  have hsemi :
      (texts.filter (fun t => !decide (t.confidence = Confidence.Confident))).filter
          (fun t => t.confidence = Confidence.SemiConfident) =
        texts.filter (fun t => t.confidence = Confidence.SemiConfident) := by
    rw [List.filter_filter]
    congr 1
    funext t
    rcases t with ⟨p, x, c⟩
    cases c <;> rfl
  have hunsure :
      (texts.filter (fun t => !decide (t.confidence = Confidence.Confident))).filter
          (fun t => !decide (t.confidence = Confidence.SemiConfident)) =
        texts.filter (fun t => t.confidence = Confidence.Unsure) := by
    rw [List.filter_filter]
    congr 1
    funext t
    rcases t with ⟨p, x, c⟩
    cases c <;> rfl
  show choose ctx pkg license texts = _
  simp only [choose, List.partition_eq_filter_filter, Function.comp_def]
  rw [hsemi, hunsure]

/-- C6 (confirmed): with at least one Confident candidate, `choose` returns
the first Confident candidate in filtered order and leaves both aggregate
flags untouched; with exactly one Confident candidate it emits no diagnostic,
and with more than one it emits one error listing the paths of all Confident
candidates. -/
theorem C6_confident_first :
    ∀ (ctx : Context) (pkg : Package) (license : License) (texts : List LicenseText),
      0 < (texts.filter (fun t => t.confidence = Confidence.Confident)).length →
      (choose ctx pkg license texts).1 = ctx ∧
      (choose ctx pkg license texts).2.2 =
        (texts.filter (fun t => t.confidence = Confidence.Confident)).head? ∧
      ((texts.filter (fun t => t.confidence = Confidence.Confident)).length = 1 →
        (choose ctx pkg license texts).2.1 = []) ∧
      (1 < (texts.filter (fun t => t.confidence = Confidence.Confident)).length →
        (choose ctx pkg license texts).2.1 =
          [⟨.error, .multipleCandidates pkg.name license
            ((texts.filter (fun t => t.confidence = Confidence.Confident)).map
              LicenseText.path)⟩]) := by
  intro ctx pkg license texts hpos
  rw [choose_buckets]
  simp only
  by_cases h1 : (texts.filter (fun t => t.confidence = Confidence.Confident)).length = 1
  · rw [if_pos h1]
    exact ⟨rfl, rfl, fun _ => rfl, fun hgt => by omega⟩
  · have hgt : (texts.filter (fun t => t.confidence = Confidence.Confident)).length > 1 := by
      omega
    rw [if_neg h1, if_pos hgt]
    exact ⟨rfl, rfl, fun h => absurd h h1, fun _ => rfl⟩

/-- Concrete Confident candidate. -/
def ltConf : LicenseText := ⟨"c1", "T".toList, .Confident⟩

/-- Concrete SemiConfident candidate. -/
def ltSemi1 : LicenseText := ⟨"s1", "T".toList, .SemiConfident⟩

/-- Concrete second SemiConfident candidate. -/
def ltSemi2 : LicenseText := ⟨"s2", "T".toList, .SemiConfident⟩

/-- Concrete package used to exercise the resolver. -/
def pkgW : Package := ⟨"w", "wd", .MIT, []⟩

/-- Witness for `C6_confident_first`: one Confident candidate among two
SemiConfident ones is returned with no flag change and no diagnostic. -/
theorem C6_confident_first_witness :
    0 < ([ltSemi1, ltConf, ltSemi2].filter
      (fun t => t.confidence = Confidence.Confident)).length ∧
    ((choose ⟨false, false⟩ pkgW .MIT [ltSemi1, ltConf, ltSemi2]).1 = ⟨false, false⟩ ∧
     (choose ⟨false, false⟩ pkgW .MIT [ltSemi1, ltConf, ltSemi2]).2.2 =
       ([ltSemi1, ltConf, ltSemi2].filter
         (fun t => t.confidence = Confidence.Confident)).head? ∧
     (([ltSemi1, ltConf, ltSemi2].filter
         (fun t => t.confidence = Confidence.Confident)).length = 1 →
       (choose ⟨false, false⟩ pkgW .MIT [ltSemi1, ltConf, ltSemi2]).2.1 = []) ∧
     (1 < ([ltSemi1, ltConf, ltSemi2].filter
         (fun t => t.confidence = Confidence.Confident)).length →
       (choose ⟨false, false⟩ pkgW .MIT [ltSemi1, ltConf, ltSemi2]).2.1 =
         [⟨.error, .multipleCandidates pkgW.name .MIT
           (([ltSemi1, ltConf, ltSemi2].filter
             (fun t => t.confidence = Confidence.Confident)).map LicenseText.path)⟩])) :=
  ⟨by decide,
   C6_confident_first ⟨false, false⟩ pkgW .MIT [ltSemi1, ltConf, ltSemi2] (by decide)⟩

/-- C7 (confirmed): with no candidates `choose` sets `missing_license`, emits
the error naming the package and its directory, and returns nothing; with
exactly two SemiConfident candidates and no Confident one it sets
`low_quality_license`, returns the first of the two, and emits one error
listing both paths. -/
theorem C7_count_escalation :
    (∀ (ctx : Context) (pkg : Package) (license : License),
      choose ctx pkg license [] =
        ({ ctx with missing_license := true },
         [⟨.error, .noCandidates pkg.name license pkg.root⟩], none)) ∧
    (∀ (ctx : Context) (pkg : Package) (license : License) (texts : List LicenseText)
        (a b : LicenseText),
      texts.filter (fun t => t.confidence = Confidence.Confident) = [] →
      texts.filter (fun t => t.confidence = Confidence.SemiConfident) = [a, b] →
      choose ctx pkg license texts =
        ({ ctx with low_quality_license := true },
         [⟨.error, .multipleLowConfidence pkg.name license [a.path, b.path]⟩],
         some a)) := by
  constructor
  · intro ctx pkg license
    rfl
  · intro ctx pkg license texts a b hconf hsemi
    rw [choose_buckets]
    simp only
    rw [hconf, hsemi]
    norm_num

/-- Witness for `C7_count_escalation`: the empty candidate list, and the list
of exactly the two concrete SemiConfident candidates. -/
theorem C7_count_escalation_witness :
    choose ⟨false, false⟩ pkgW .MIT [] =
      ({ missing_license := true, low_quality_license := false },
       [⟨.error, .noCandidates pkgW.name .MIT pkgW.root⟩], none) ∧
    ([ltSemi1, ltSemi2].filter (fun t => t.confidence = Confidence.Confident) = [] ∧
     [ltSemi1, ltSemi2].filter (fun t => t.confidence = Confidence.SemiConfident) =
       [ltSemi1, ltSemi2] ∧
     choose ⟨false, false⟩ pkgW .MIT [ltSemi1, ltSemi2] =
       ({ missing_license := false, low_quality_license := true },
        [⟨.error, .multipleLowConfidence pkgW.name .MIT [ltSemi1.path, ltSemi2.path]⟩],
        some ltSemi1)) :=
  ⟨C7_count_escalation.1 ⟨false, false⟩ pkgW .MIT,
   rfl, rfl,
   C7_count_escalation.2 ⟨false, false⟩ pkgW .MIT [ltSemi1, ltSemi2] ltSemi1 ltSemi2 rfl rfl⟩

/-- A generic-mode candidate found while every candidate text fails the
template check carries confidence `Unsure`. -/
theorem find_generic_go_unsure (tmpl : Templates) (pkg : Package)
    (hcheck : ∀ text, check_against_template tmpl text pkg.license = false) :
    ∀ (es : List Entry) (t : LicenseText),
      find_generic_go tmpl pkg es = some t → t.confidence = Confidence.Unsure := by
  intro es
  induction es with
  | nil =>
    intro t h
    simp [find_generic_go] at h
  | cons e es ih =>
    intro t h
    unfold find_generic_go at h
    by_cases hg : generic_license_name e.name
    · rw [if_pos hg] at h
      cases hc : e.content with
      | some text =>
        rw [hc] at h
        simp only [hcheck, Bool.false_eq_true, if_false, Option.some.injEq] at h
        rw [← h]
      | none =>
        rw [hc] at h
        exact ih t h
    · rw [if_neg hg] at h
      exact ih t h

/-- Concrete package with an unspecified license and a readable generic
`LICENSE` file. -/
def pkgU : Package := ⟨"foo", "dir", .Unspecified, [⟨"LICENSE", some "HELLO".toList⟩]⟩

/-- C1 (counterexample): a package with an `Unspecified` obligation and a
readable generic `LICENSE` file.  Generic discovery is invoked and its result
is used — the file's text is emitted with a very-low-confidence inline error —
no missing-license error is reported, and `missing_license` stays false,
contradicting the claim on all three counts. -/
theorem C1_cex :
    pkgU.license = License.Unspecified ∧
    find_generic_license_text noTemplates pkgU =
      some ⟨"dir/LICENSE", "HELLO".toList, .Unsure⟩ ∧
    (inline_package noTemplates ⟨false, false⟩ pkgU).ctx.missing_license = false ∧
    (inline_package noTemplates ⟨false, false⟩ pkgU).diags =
      [⟨.error, .onlyVeryLowConfidence "foo" .Unspecified "dir/LICENSE"⟩] ∧
    (inline_package noTemplates ⟨false, false⟩ pkgU).out =
      [OutItem.header "foo" .Unspecified, OutItem.blank,
       OutItem.textLine "HELLO".toList, OutItem.blank] :=
  ⟨rfl, rfl, rfl, rfl, rfl⟩

/-- C1 (amended): a package with an `Unspecified` obligation first goes
through generic discovery like any other; when that yields a candidate the
candidate's text is used with an inline very-low-confidence error, and only
when it yields nothing is the missing-license error reported.  In neither case
is the `missing_license` flag set, and specific discovery is never invoked
(the whole result of the package step is characterized below, and none of it
involves the resolver). -/
theorem C1_unspecified :
    ∀ (tmpl : Templates) (ctx : Context) (pkg : Package),
      pkg.license = License.Unspecified → tmpl .Unspecified = none →
      (inline_package tmpl ctx pkg).ctx = ctx ∧
      (find_generic_license_text tmpl pkg = none →
        (inline_package tmpl ctx pkg).diags = [⟨.error, .noLicense pkg.name⟩] ∧
        (inline_package tmpl ctx pkg).out =
          [OutItem.header pkg.name pkg.license, OutItem.blank, OutItem.blank]) ∧
      (∀ t, find_generic_license_text tmpl pkg = some t →
        t.confidence = Confidence.Unsure ∧
        (inline_package tmpl ctx pkg).diags =
          [⟨.error, .onlyVeryLowConfidence pkg.name pkg.license t.path⟩] ∧
        (inline_package tmpl ctx pkg).out =
          [OutItem.header pkg.name pkg.license, OutItem.blank] ++
            (rustLines t.text).map OutItem.textLine ++ [OutItem.blank]) := by
  intro tmpl ctx pkg hlic htmpl
  have hmul : pkg.license.isMultiple = false := by rw [hlic]; rfl
  have hcheck : ∀ text, check_against_template tmpl text pkg.license = false := by
    intro text
    rw [check_eq_single tmpl text pkg.license hmul, hlic, htmpl]
  cases hfg : find_generic_license_text tmpl pkg with
  | none =>
    refine ⟨?_, fun _ => ⟨?_, ?_⟩, fun t ht => absurd ht (by simp)⟩
    · simp only [inline_package, hfg, hlic]
    · simp only [inline_package, hfg, hlic]
    · simp only [inline_package, hfg, hlic]
      rfl
  | some t =>
    have hunsure : t.confidence = Confidence.Unsure :=
      find_generic_go_unsure tmpl pkg hcheck pkg.dir t hfg
    refine ⟨?_, fun hn => absurd hn (by simp), fun t' ht' => ?_⟩
    · simp only [inline_package, hfg]
    · have ht'' : t' = t := by
        injection ht' with h
        exact h.symm
      subst ht''
      refine ⟨hunsure, ?_, ?_⟩
      · simp only [inline_package, hfg, hunsure]
      · simp only [inline_package, hfg, hunsure]

/-- Witness for `C1_unspecified` at the concrete package `pkgU` with the empty
template oracle: the flags are untouched and the found generic candidate is
used. -/
theorem C1_unspecified_witness :
    pkgU.license = License.Unspecified ∧ noTemplates .Unspecified = none ∧
    (inline_package noTemplates ⟨false, false⟩ pkgU).ctx = ⟨false, false⟩ :=
  ⟨rfl, rfl, (C1_unspecified noTemplates ⟨false, false⟩ pkgU rfl rfl).1⟩

/-- Concrete package with an MIT license and a generic `LICENSE` file whose
content is far from the template. -/
def pkgTwo : Package := ⟨"bar", "d", .MIT, [⟨"LICENSE", some "ZZZZ".toList⟩]⟩

/-- C2 (counterexample): generic discovery yields an `Unsure` candidate (the
only result for the obligation), its text is emitted with inline error
diagnostics, and yet `low_quality_license` remains false, contradicting the
claim's generic-mode part. -/
theorem C2_cex :
    (find_generic_license_text shortTemplates pkgTwo).map LicenseText.confidence =
      some Confidence.Unsure ∧
    (inline_package shortTemplates ⟨false, false⟩ pkgTwo).out =
      [OutItem.header "bar" .MIT, OutItem.blank,
       OutItem.textLine "ZZZZ".toList, OutItem.blank] ∧
    (inline_package shortTemplates ⟨false, false⟩ pkgTwo).ctx.low_quality_license = false :=
  ⟨rfl, rfl, rfl⟩

/-- C2 (amended): on the resolver path, `choose` sets `low_quality_license`
whenever its only candidates are Unsure (one or many) or whenever there are
several SemiConfident candidates and no Confident one; on the generic-mode
path, however, the candidate is used with inline diagnostics and the context
flags are never modified, whatever the candidate's confidence. -/
theorem C2_low_quality_flag :
    (∀ (ctx : Context) (pkg : Package) (license : License) (texts : List LicenseText),
      texts ≠ [] →
      texts.filter (fun t => t.confidence = Confidence.Confident) = [] →
      texts.filter (fun t => t.confidence = Confidence.SemiConfident) = [] →
      (choose ctx pkg license texts).1.low_quality_license = true) ∧
    (∀ (ctx : Context) (pkg : Package) (license : License) (texts : List LicenseText),
      texts.filter (fun t => t.confidence = Confidence.Confident) = [] →
      1 < (texts.filter (fun t => t.confidence = Confidence.SemiConfident)).length →
      (choose ctx pkg license texts).1.low_quality_license = true) ∧
    (∀ (tmpl : Templates) (ctx : Context) (pkg : Package) (t : LicenseText),
      find_generic_license_text tmpl pkg = some t →
      (inline_package tmpl ctx pkg).ctx = ctx) := by
  refine ⟨?_, ?_, ?_⟩
  · intro ctx pkg license texts hne hconf hsemi
    have hun : texts.filter (fun t => t.confidence = Confidence.Unsure) = texts := by
      rw [List.filter_eq_self]
      intro a ha
      have h1 := List.filter_eq_nil_iff.mp hconf a ha
      have h2 := List.filter_eq_nil_iff.mp hsemi a ha
      rcases a with ⟨p, x, c⟩
      cases c
      · exact absurd (by simp) h1
      · exact absurd (by simp) h2
      · simp
    rw [choose_buckets]
    simp only
    rw [hconf, hsemi, hun]
    have hpos : 0 < texts.length := List.length_pos.mpr hne
    by_cases hl : texts.length = 1
    · simp [hl]
    · have hgt : 1 < texts.length := by omega
      simp [hl, hgt]
  · intro ctx pkg license texts hconf hsemi
    rw [choose_buckets]
    simp only
    rw [hconf]
    have hne : (texts.filter (fun t => t.confidence = Confidence.SemiConfident)).length ≠ 1 := by
      omega
    simp [hne, hsemi]
  · intro tmpl ctx pkg t h
    simp only [inline_package, h]

/-- Concrete single Unsure candidate. -/
def ltUn : LicenseText := ⟨"u1", "T".toList, .Unsure⟩

/-- Witness for `C2_low_quality_flag`: a lone Unsure candidate makes the
resolver set the flag, two SemiConfident candidates make it set the flag, and
the concrete generic-path package leaves the context untouched. -/
theorem C2_low_quality_flag_witness :
    ([ltUn] ≠ ([] : List LicenseText) ∧
      (choose ⟨false, false⟩ pkgW .MIT [ltUn]).1.low_quality_license = true) ∧
    (1 < ([ltSemi1, ltSemi2].filter
        (fun t => t.confidence = Confidence.SemiConfident)).length ∧
      (choose ⟨false, false⟩ pkgW .MIT [ltSemi1, ltSemi2]).1.low_quality_license = true) ∧
    (find_generic_license_text shortTemplates pkgTwo =
        some ⟨"d/LICENSE", "ZZZZ".toList, .Unsure⟩ ∧
      (inline_package shortTemplates ⟨false, false⟩ pkgTwo).ctx = ⟨false, false⟩) :=
  ⟨⟨by simp, C2_low_quality_flag.1 ⟨false, false⟩ pkgW .MIT [ltUn] (by simp) rfl rfl⟩,
   ⟨by decide, C2_low_quality_flag.2.1 ⟨false, false⟩ pkgW .MIT [ltSemi1, ltSemi2] rfl
      (by decide)⟩,
   ⟨rfl, C2_low_quality_flag.2.2 shortTemplates ⟨false, false⟩ pkgTwo
      ⟨"d/LICENSE", "ZZZZ".toList, .Unsure⟩ rfl⟩⟩

/-- Presence of two consecutive spaces somewhere in the text. -/
def hasDoubleSpace : List Char → Bool
  | c1 :: c2 :: rest => (c1 = ' ' ∧ c2 = ' ') || hasDoubleSpace (c2 :: rest)
  | _ => false

/-- Conversion of a valid code point through `Char.ofNat` preserves it. -/
theorem charOfNat_toNat (n : Nat) (h : n.isValidChar) : (Char.ofNat n).toNat = n := by
  unfold Char.ofNat
  rw [dif_pos h]
  rfl

/-- Char-wise upper-casing is idempotent. -/
theorem toUpper_idem (c : Char) : (Char.toUpper c).toUpper = Char.toUpper c := by
  unfold Char.toUpper
  simp only []
  by_cases h : c.toNat ≥ 97 ∧ c.toNat ≤ 122
  · rw [if_pos h]
    have hv : (Char.ofNat (c.toNat - 32)).toNat = c.toNat - 32 := by
      apply charOfNat_toNat
      left
      omega
    rw [if_neg]
    rw [hv]
    omega
  · rw [if_neg h, if_neg h]

/-- Upper-casing cannot produce a code point below 65 (covering CR and LF)
from a character that was not already that code point. -/
theorem toUpper_ne_low (c : Char) (d : Char) (hd : d.toNat < 65)
    (hne : c ≠ d) : Char.toUpper c ≠ d := by
  intro he
  unfold Char.toUpper at he
  by_cases hc : c.toNat ≥ 97 ∧ c.toNat ≤ 122
  · rw [if_pos hc] at he
    have hv : (Char.ofNat (c.toNat - 32)).toNat = c.toNat - 32 := by
      apply charOfNat_toNat
      left
      omega
    rw [he] at hv
    omega
  · rw [if_neg hc] at he
    exact hne he

/-- Replacement is the identity when the replaced character is absent. -/
theorem replaceChar_id (c r : Char) (s : List Char) (h : c ∉ s) :
    replaceChar c r s = s := by
  induction s with
  | nil => rfl
  | cons x xs ih =>
    have hx : x ≠ c := fun he => h (he ▸ List.mem_cons_self x xs)
    have hxs : c ∉ xs := fun hm => h (List.mem_cons_of_mem x hm)
    simp [replaceChar, hx] at ih ⊢
    exact ih hxs

/-- The replaced character is absent from the replacement's output. -/
theorem not_mem_replaceChar (c r : Char) (s : List Char) (hne : c ≠ r) :
    c ∉ replaceChar c r s := by
  intro h
  rcases List.mem_map.mp h with ⟨x, _, hx⟩
  by_cases hxc : x = c
  · rw [if_pos hxc] at hx
    exact hne hx.symm
  · rw [if_neg hxc] at hx
    exact hxc (hx ▸ rfl)

/-- Characters of the replacement's output come from the input or are the
replacement character. -/
theorem mem_replaceChar (y c r : Char) (s : List Char) (h : y ∈ replaceChar c r s) :
    y = r ∨ y ∈ s := by
  rcases List.mem_map.mp h with ⟨x, hxs, hx⟩
  by_cases hxc : x = c
  · rw [if_pos hxc] at hx
    left
    exact hx.symm
  · rw [if_neg hxc] at hx
    right
    exact hx ▸ hxs

/-- Characters of the collapse's output come from the input or are spaces. -/
theorem mem_collapseDouble (y : Char) : ∀ l, y ∈ collapseDouble l → y = ' ' ∨ y ∈ l := by
  intro l
  induction l using collapseDouble.induct with
  | case1 => intro h; simp [collapseDouble] at h
  | case2 c => intro h; simp [collapseDouble] at h; simp [h]
  | case3 c1 c2 rest hsp ih =>
    intro h
    rw [collapseDouble, if_pos hsp] at h
    rcases List.mem_cons.mp h with h | h
    · left; exact h
    · rcases ih h with h | h
      · left; exact h
      · right; simp [h]
  | case4 c1 c2 rest hsp ih =>
    intro h
    rw [collapseDouble, if_neg hsp] at h
    rcases List.mem_cons.mp h with h | h
    · right; simp [h]
    · rcases ih h with h | h
      · left; exact h
      · right; simp [List.mem_cons] at h ⊢; tauto

/-- The one-pass collapse is the identity on texts with no double space. -/
theorem collapseDouble_id : ∀ l, hasDoubleSpace l = false → collapseDouble l = l := by
  intro l
  induction l using collapseDouble.induct with
  | case1 => intro _; rfl
  | case2 c => intro _; rfl
  | case3 c1 c2 rest hsp ih =>
    intro h
    rw [hasDoubleSpace] at h
    simp [hsp] at h
  | case4 c1 c2 rest hsp ih =>
    intro h
    rw [hasDoubleSpace] at h
    simp only [Bool.or_eq_false_iff] at h
    rw [collapseDouble, if_neg hsp, ih h.2]

/-- Normalized text contains no carriage return. -/
theorem normalize_no_cr (s : List Char) : '\r' ∉ normalize s := by
  intro h
  unfold normalize at h
  rcases List.mem_map.mp h with ⟨x, hxm, hx⟩
  have hx_ne : x ≠ '\r' := by
    intro he
    subst he
    rcases mem_collapseDouble '\r' _ hxm with h' | h'
    · exact absurd h' (by decide)
    · rcases mem_replaceChar '\r' '\n' ' ' _ h' with h'' | h''
      · exact absurd h'' (by decide)
      · exact not_mem_replaceChar '\r' ' ' s (by decide) h''
  exact toUpper_ne_low x '\r' (by decide) hx_ne hx

/-- Normalized text contains no line feed. -/
theorem normalize_no_nl (s : List Char) : '\n' ∉ normalize s := by
  intro h
  unfold normalize at h
  rcases List.mem_map.mp h with ⟨x, hxm, hx⟩
  have hx_ne : x ≠ '\n' := by
    intro he
    subst he
    rcases mem_collapseDouble '\n' _ hxm with h' | h'
    · exact absurd h' (by decide)
    · exact not_mem_replaceChar '\n' ' ' _ (by decide) h'
  exact toUpper_ne_low x '\n' (by decide) hx_ne hx

/-- Normalized text is fixed by char-wise upper-casing. -/
theorem normalize_map_toUpper (s : List Char) :
    (normalize s).map Char.toUpper = normalize s := by
  unfold normalize
  rw [List.map_map]
  apply List.map_congr_left
  intro x _
  exact toUpper_idem x

/-- Texts free of carriage returns, line feeds and double spaces and fixed by
upper-casing are fixed points of `normalize`. -/
theorem normalize_fixed (y : List Char) (h1 : '\r' ∉ y) (h2 : '\n' ∉ y)
    (h3 : hasDoubleSpace y = false) (h4 : y.map Char.toUpper = y) :
    normalize y = y := by
  unfold normalize
  rw [replaceChar_id '\r' ' ' y h1, replaceChar_id '\n' ' ' y h2, collapseDouble_id y h3, h4]

/-- C4 (counterexample): three spaces.  The one-pass double-space replacement
turns three spaces into two, and a second application of `normalize` collapses
those into one, so `normalize (normalize x)` differs from `normalize x`. -/
theorem C4_cex :
    normalize "   ".toList = "  ".toList ∧
    normalize (normalize "   ".toList) = " ".toList ∧
    normalize (normalize "   ".toList) ≠ normalize "   ".toList := by
  refine ⟨by decide, by decide, by decide⟩

/-- C4 (amended): `normalize` is not idempotent in general; it is idempotent
on exactly those inputs whose normalized form contains no two consecutive
spaces (double spaces survive normalization when the input has runs of three
or more spaces, and a second pass collapses them further). -/
theorem C4_idempotent_when_no_double_space :
    ∀ s : List Char, hasDoubleSpace (normalize s) = false →
      normalize (normalize s) = normalize s := by
  intro s h
  exact normalize_fixed (normalize s) (normalize_no_cr s) (normalize_no_nl s) h
    (normalize_map_toUpper s)

/-- Witness for `C4_idempotent_when_no_double_space` at the concrete input
`"a b\nc"`, whose normalized form `A B C` has no double space. -/
theorem C4_idempotent_when_no_double_space_witness :
    hasDoubleSpace (normalize "a b\nc".toList) = false ∧
    normalize (normalize "a b\nc".toList) = normalize "a b\nc".toList :=
  ⟨by decide, C4_idempotent_when_no_double_space "a b\nc".toList (by decide)⟩

/-- C8 (confirmed): the run succeeds exactly when both aggregate flags are
false; its diagnostics are the per-package diagnostics followed by the summary
paragraph of each flag that is set, and when either flag is set the run
returns the generic failure error. -/
theorem C8_run_outcome :
    ∀ (tmpl : Templates) (root : Package) (packages : List Package),
      ((run tmpl root packages).result = Except.ok () ↔
        ((run tmpl root packages).ctx.missing_license = false ∧
         (run tmpl root packages).ctx.low_quality_license = false)) ∧
      (run tmpl root packages).diags =
        (inline tmpl ⟨false, false⟩ root (sortByName packages)).diags ++
          summaryDiags (run tmpl root packages).ctx ∧
      ((run tmpl root packages).ctx.missing_license = true ∨
        (run tmpl root packages).ctx.low_quality_license = true →
        (run tmpl root packages).result =
          Except.error "Generating bundle finished with error(s)") := by
  intro tmpl root packages
  unfold run
  simp only
  cases hm : (inline tmpl ⟨false, false⟩ root (sortByName packages)).ctx.missing_license <;>
    cases hl : (inline tmpl ⟨false, false⟩ root (sortByName packages)).ctx.low_quality_license <;>
      simp [hm, hl]

/-- Concrete root package. -/
def rootP : Package := ⟨"r", "rr", .Unspecified, []⟩

/-- Witness for `C8_run_outcome`: a run over one MIT package with an empty
directory sets `missing_license` and fails with the generic error. -/
theorem C8_run_outcome_witness :
    ((run noTemplates rootP [pkgW]).ctx.missing_license = true ∨
      (run noTemplates rootP [pkgW]).ctx.low_quality_license = true) ∧
    (run noTemplates rootP [pkgW]).result =
      Except.error "Generating bundle finished with error(s)" :=
  ⟨Or.inl rfl, (C8_run_outcome noTemplates rootP [pkgW]).2.2 (Or.inl rfl)⟩

/-- Concatenation distributes over extraction of the header names. -/
theorem outputHeaders_append (a b : List OutItem) :
    outputHeaders (a ++ b) = outputHeaders a ++ outputHeaders b :=
  List.filterMap_append a b _

/-- Indented text lines contribute no header names. -/
theorem outputHeaders_textLines (ls : List (List Char)) :
    outputHeaders (ls.map OutItem.textLine) = [] := by
  induction ls with
  | nil => rfl
  | cons l ls ih =>
    simp only [outputHeaders, List.map_cons, List.filterMap_cons] at ih ⊢
    exact ih

/-- The per-obligation resolver step writes no header names. -/
theorem outputHeaders_inline_license (tmpl : Templates) (ctx : Context) (pkg : Package)
    (license : License) :
    outputHeaders (inline_license tmpl ctx pkg license).out = [] := by
  unfold inline_license
  simp only
  cases (choose ctx pkg license (find_license_text tmpl pkg license)).2.2 with
  | none => rfl
  | some t => exact outputHeaders_textLines _

/-- The conjunctive loop writes no header names. -/
theorem outputHeaders_inline_multi (tmpl : Templates) :
    ∀ (ctx : Context) (pkg : Package) (ls : List License),
      outputHeaders (inline_multi tmpl ctx pkg ls).out = [] := by
  intro ctx pkg ls
  induction ctx, pkg, ls using inline_multi.induct tmpl with
  | case1 ctx pkg => rfl
  | case2 ctx pkg l => exact outputHeaders_inline_license tmpl ctx pkg l
  | case3 ctx pkg l l2 ls e1 ih =>
    show outputHeaders
      ((inline_license tmpl ctx pkg l).out ++
        [OutItem.blank, OutItem.separator, OutItem.blank] ++
        (inline_multi tmpl (inline_license tmpl ctx pkg l).ctx pkg (l2 :: ls)).out) = []
    rw [outputHeaders_append, outputHeaders_append, outputHeaders_inline_license, ih]
    rfl

/-- Each package block contributes exactly its own header name. -/
theorem outputHeaders_inline_package (tmpl : Templates) (ctx : Context) (pkg : Package) :
    outputHeaders (inline_package tmpl ctx pkg).out = [pkg.name] := by
  unfold inline_package
  simp only
  cases hfg : find_generic_license_text tmpl pkg with
  | some t =>
    simp only
    show outputHeaders
      ([OutItem.header pkg.name pkg.license, OutItem.blank] ++
        (rustLines t.text).map OutItem.textLine ++ [OutItem.blank]) = [pkg.name]
    rw [outputHeaders_append, outputHeaders_append, outputHeaders_textLines]
    rfl
  | none =>
    rcases pkg with ⟨n, r, lic, dir⟩
    cases lic
    case Unspecified => rfl
    case Multiple ls =>
      dsimp only
      rw [outputHeaders_append, outputHeaders_append, outputHeaders_inline_multi]
      rfl
    all_goals
      dsimp only
      rw [outputHeaders_append, outputHeaders_append, outputHeaders_inline_license]
      rfl

/-- The package loop writes the header names of its packages in order. -/
theorem outputHeaders_inlinePackages (tmpl : Templates) :
    ∀ (ctx : Context) (ps : List Package),
      outputHeaders (inlinePackages tmpl ctx ps).out = ps.map Package.name := by
  intro ctx ps
  induction ps generalizing ctx with
  | nil => rfl
  | cons p ps ih =>
    show outputHeaders
      ((inline_package tmpl ctx p).out ++ [OutItem.blank] ++
        (inlinePackages tmpl (inline_package tmpl ctx p).ctx ps).out) =
      p.name :: ps.map Package.name
    rw [outputHeaders_append, outputHeaders_append, outputHeaders_inline_package, ih]
    rfl

/-- The run's header names are exactly the sorted package names. -/
theorem outputHeaders_run (tmpl : Templates) (root : Package) (packages : List Package) :
    outputHeaders (run tmpl root packages).out = (sortByName packages).map Package.name := by
  unfold run inline
  simp only
  show outputHeaders
    (OutItem.preamble root.name :: OutItem.blank ::
      (inlinePackages tmpl ⟨false, false⟩ (sortByName packages)).out) = _
  show outputHeaders (inlinePackages tmpl ⟨false, false⟩ (sortByName packages)).out = _
  exact outputHeaders_inlinePackages tmpl ⟨false, false⟩ (sortByName packages)

/-- Strings with equal character lists are equal. -/
theorem stringToList_inj (a b : String) (h : a.toList = b.toList) : a = b := by
  rcases a with ⟨da⟩
  rcases b with ⟨db⟩
  simp only [String.toList] at h
  subst h
  rfl

/-- Concrete package named `a`. -/
def pa : Package := ⟨"a", "ra", .Unspecified, []⟩

/-- Concrete second package also named `a`. -/
def pb : Package := ⟨"a", "rb", .Unspecified, []⟩

/-- Concrete package named `b`. -/
def pkgB : Package := ⟨"b", "rb2", .Unspecified, []⟩

/-- C9 (counterexample): two packages sharing the name `a`.  Their blocks both
appear, so the output header names are `a, a`, which is not strictly
ascending. -/
theorem C9_cex :
    outputHeaders (run noTemplates rootP [pa, pb]).out = ["a", "a"] ∧
    ¬ List.Pairwise (fun x y : String => x.toList < y.toList)
        (outputHeaders (run noTemplates rootP [pa, pb]).out) := by
  refine ⟨rfl, ?_⟩
  intro h
  rw [show outputHeaders (run noTemplates rootP [pa, pb]).out = ["a", "a"] from rfl] at h
  rcases List.pairwise_cons.mp h with ⟨h1, _⟩
  exact absurd (h1 "a" (List.mem_cons_self _ _)) (by decide)

/-- C9 (amended): block headers appear in ascending (not necessarily strict)
lexicographic order of package name for every input list, and in strictly
ascending order whenever the package names are pairwise distinct. -/
theorem C9_sorted_ascending :
    ∀ (tmpl : Templates) (root : Package) (packages : List Package),
      List.Pairwise (fun a b : String => a.toList ≤ b.toList)
        (outputHeaders (run tmpl root packages).out) ∧
      ((packages.map Package.name).Pairwise (fun a b => a ≠ b) →
        List.Pairwise (fun a b : String => a.toList < b.toList)
          (outputHeaders (run tmpl root packages).out)) := by
  intro tmpl root packages
  rw [outputHeaders_run]
  have hsorted : List.Pairwise nameLe (sortByName packages) :=
    List.sorted_insertionSort nameLe packages
  have hle : List.Pairwise (fun a b : String => a.toList ≤ b.toList)
      ((sortByName packages).map Package.name) :=
    List.pairwise_map.mpr hsorted
  refine ⟨hle, fun hdist => ?_⟩
  have hperm : ((sortByName packages).map Package.name).Perm (packages.map Package.name) :=
    (List.perm_insertionSort nameLe packages).map Package.name
  have hne : ((sortByName packages).map Package.name).Pairwise (fun a b => a ≠ b) :=
    (List.Perm.pairwise_iff (fun h => fun he => h he.symm) hperm).mpr hdist
  exact (hle.and hne).imp (fun hab =>
    lt_of_le_of_ne hab.1 (fun he => hab.2 (stringToList_inj _ _ he)))

/-- Witness for `C9_sorted_ascending`: two distinctly named packages supplied
in reverse order come out strictly ascending. -/
theorem C9_sorted_ascending_witness :
    ([pkgB, pa].map Package.name).Pairwise (fun a b => a ≠ b) ∧
    List.Pairwise (fun a b : String => a.toList < b.toList)
      (outputHeaders (run noTemplates rootP [pkgB, pa]).out) :=
  ⟨by decide, (C9_sorted_ascending noTemplates rootP [pkgB, pa]).2 (by decide)⟩

end Bundle


